import Mathlib

/-!
Verification of the PixelMirror tile-based screen-streaming core
(`pixelmirror.py`). The development shallowly embeds the frame codec,
the tile grid and hasher, the capture-broadcast engine's per-iteration
logic, the server message handler, and the viewer's screen-update and
connection logic, and proves the spec's claims about them.

Conventions of the embedding:
* Python `bytes` values are `List Nat` whose elements are below 256
  where produced by the code itself; `struct.pack` range errors are
  modelled by `Except String`.
* PIL images are `Img`: a width, a height and an RGB pixel function.
  Image compression and decompression (WebP/JPEG via PIL) and the SHA-1
  digest (via hashlib) are external collaborators and are passed in as
  function parameters.
* Python dictionaries keyed by tile coordinates are modelled as
  functions `(Nat x Nat) -> Option (List Nat)`.
-/

namespace PixelMirror

/-- Big-endian value of a byte list, as read by `struct.unpack`. -/
def beVal (bs : List Nat) : Nat := bs.foldl (fun a b => a * 256 + b) 0

/-- Big-endian 2-byte encoding of `n`, as written by `struct.pack` format `H`. -/
def u16be (n : Nat) : List Nat := [n / 256 % 256, n % 256]

/-- Big-endian 4-byte encoding of `n`, as written by `struct.pack` format `I`. -/
def u32be (n : Nat) : List Nat := [n / 16777216 % 256, n / 65536 % 256, n / 256 % 256, n % 256]

/-- An RGB image: dimensions plus a pixel function, modelling a PIL `Image`
in mode `RGB`. -/
structure Img where
  width : Nat
  height : Nat
  pix : Nat → Nat → Nat × Nat × Nat

/-- The rectangular sub-image with top-left corner `(x, y)`, width `w` and
height `h`, modelling `Image.crop((x, y, x + w, y + h))`. -/
def Img.crop (img : Img) (x y w h : Nat) : Img :=
  ⟨w, h, fun i j => img.pix (x + i) (y + j)⟩

/-- The three bytes of one RGB pixel. -/
def rgbBytes (p : Nat × Nat × Nat) : List Nat := [p.1, p.2.1, p.2.2]

/-- Raw pixel bytes of an image in row-major order, modelling
`Image.tobytes()` for mode `RGB`. -/
def Img.tobytes (img : Img) : List Nat :=
  (List.range img.height).flatMap fun j =>
    (List.range img.width).flatMap fun i => rgbBytes (img.pix i j)

/-- An all-black image, modelling `Image.new("RGB", (w, h), color = 'black')`. -/
def blackImage (w h : Nat) : Img := ⟨w, h, fun _ _ => (0, 0, 0)⟩

/-- Paste `src` into `dst` with top-left corner at `(px, py)`, modelling
`Image.paste` (pixels outside the destination canvas are clipped; the
destination dimensions are unchanged). -/
def Img.paste (dst src : Img) (px py : Nat) : Img :=
  ⟨dst.width, dst.height, fun i j =>
    if px ≤ i ∧ i < px + src.width ∧ py ≤ j ∧ j < py + src.height then
      src.pix (i - px) (j - py)
    else dst.pix i j⟩

/-- A changed-tile record as built by the server capture loop:
`(x_idx, y_idx, tile_img, compressed_data)`. -/
abbrev ChangedTile := Nat × Nat × Img × List Nat

/-- A tile entry as returned by the client codec:
`(x_idx, y_idx, tile_w, tile_h, compressed_data)`. -/
abbrev TileEntry := Nat × Nat × Nat × Nat × List Nat

/-- The tile entry on the wire for a changed tile: coordinates, the tile
image's dimensions, and the compressed bytes. -/
def toEntry : ChangedTile → TileEntry
  | (x, y, timg, data) => (x, y, timg.width, timg.height, data)

/-- Python truthiness of the `full_frame_image_bytes` argument of
`_pack_delta_payload`: `None` and the empty byte string are falsy. -/
def pyTruthy (o : Option (List Nat)) : Bool :=
  match o with
  | none => false
  | some bs => !bs.isEmpty

/-- Wire chunk for one changed tile: the 12-byte header packed by
`struct.pack` with format `>HHHH I` followed by the compressed data.
`struct.pack` raises when a field does not fit its width. -/
def packTileChunk (t : ChangedTile) : Except String (List Nat) :=
  match t with
  | (x, y, timg, data) =>
    if x < 65536 ∧ y < 65536 ∧ timg.width < 65536 ∧ timg.height < 65536 ∧
        data.length < 4294967296 then
      .ok (u16be x ++ u16be y ++ u16be timg.width ++ u16be timg.height ++
        u32be data.length ++ data)
    else .error "struct.error"

/-- The server codec `ServerNetworkManager._pack_delta_payload`: a truthy
`fullFrame` yields a keyframe record `0x01, frame_id, image bytes`;
otherwise a delta record `0x00, frame_id, n_tiles` followed by one chunk
per changed tile. -/
def packDeltaPayload (frameId : Nat) (changedTiles : List ChangedTile)
    (fullFrame : Option (List Nat)) : Except String (List Nat) :=
  if pyTruthy fullFrame then
    if frameId < 4294967296 then
      .ok (1 :: (u32be frameId ++ fullFrame.getD []))
    else .error "struct.error"
  else
    if frameId < 4294967296 ∧ changedTiles.length < 65536 then
      (changedTiles.mapM packTileChunk).map fun chunks =>
        0 :: (u32be frameId ++ u16be changedTiles.length ++ chunks.flatten)
    else .error "struct.error"

/-- The client's per-tile parsing loop inside `_unpack_delta_payload`:
read `n` tile entries, each a 12-byte header declaring a data length
followed by that many data bytes; trailing bytes are ignored. -/
def parseTiles : Nat → List Nat → Except String (List TileEntry)
  | 0, _ => .ok []
  | n + 1, buf =>
    let hdr := buf.take 12
    if hdr.length < 12 then .error "short tile header"
    else
      let x := beVal (hdr.take 2)
      let y := beVal ((hdr.drop 2).take 2)
      let w := beVal ((hdr.drop 4).take 2)
      let h := beVal ((hdr.drop 6).take 2)
      let len := beVal (hdr.drop 8)
      let body := buf.drop 12
      let data := body.take len
      if data.length < len then .error "short tile data"
      else (parseTiles n (body.drop len)).map fun ts => (x, y, w, h, data) :: ts

/-- The client codec `ClientNetworkManager._unpack_delta_payload`: a leading
`0x01` yields `(frame_id, [], full image bytes)`, a leading `0x00` yields
`(frame_id, tile entries, none)`, and any other leading byte (or a
truncated header) is an error. -/
def unpackDeltaPayload (payload : List Nat) :
    Except String (Nat × List TileEntry × Option (List Nat)) :=
  if payload.length < 1 then .error "struct.error"
  else
    let frameType := beVal (payload.take 1)
    let rest := payload.drop 1
    if frameType = 1 then
      if rest.length < 4 then .error "struct.error"
      else .ok (beVal (rest.take 4), [], some (rest.drop 4))
    else if frameType = 0 then
      if rest.length < 4 then .error "struct.error"
      else
        let fid := beVal (rest.take 4)
        let r2 := rest.drop 4
        if r2.length < 2 then .error "struct.error"
        else
          let n := beVal (r2.take 2)
          (parseTiles n (r2.drop 2)).map fun ts => (fid, ts, none)
    else .error "unknown frame type"

/-- Python `range(0, stop, step)` for a positive step: the multiples of
`step` below `stop`. -/
def rangeStep (stop step : Nat) : List Nat :=
  (List.range ((stop + step - 1) / step)).map (· * step)

/-- The tile iterator `ServerNetworkManager._partition_screen`: row-major
(outer loop over `y`, inner over `x`), each tile cropped at `(x, y)` with
dimensions `min(T, W - x)` by `min(T, H - y)` and indexed `(x / T, y / T)`. -/
def partitionScreen (tileSize : Nat) (img : Img) : List (Nat × Nat × Img) :=
  (rangeStep img.height tileSize).flatMap fun y =>
    (rangeStep img.width tileSize).map fun x =>
      (x / tileSize, y / tileSize,
        img.crop x y (min tileSize (img.width - x)) (min tileSize (img.height - y)))

/-- The number of grid cells along a dimension of extent `n` with stride `t`. -/
def gridCount (n t : Nat) : Nat := (n + t - 1) / t

/-- The tile of `img` at grid cell `(i, j)` with stride `tileSize`, exactly
as `_partition_screen` crops it. -/
def tileAt (tileSize : Nat) (img : Img) (i j : Nat) : Img :=
  img.crop (i * tileSize) (j * tileSize)
    (min tileSize (img.width - i * tileSize)) (min tileSize (img.height - j * tileSize))

/-- The tile fingerprint `ServerNetworkManager._hash_tile`: the digest of the
tile's raw pixel bytes. The digest function itself (`hashlib.sha1(. ).digest()`)
is an external collaborator passed as `hashFn`. -/
def hashTile (hashFn : List Nat → List Nat) (tileImage : Img) : List Nat :=
  hashFn tileImage.tobytes

/-- Accumulator of the per-tile loop of `capture_loop`: the fresh hash map
`new_tile_hashes`, the list `changed_tiles_data`, and `num_changed_tiles`. -/
structure TileScan where
  newHashes : Nat × Nat → Option (List Nat)
  changed : List ChangedTile
  numChanged : Nat

/-- The changed test of `capture_loop`:
`first_frame or self._prev_tile_hashes.get((x_idx, y_idx)) != current_hash`. -/
def tileChangedNow (first : Bool) (prev : Nat × Nat → Option (List Nat))
    (hashFn : List Nat → List Nat) (t : Nat × Nat × Img) : Bool :=
  first || decide (prev (t.1, t.2.1) ≠ some (hashTile hashFn t.2.2))

/-- One iteration of the per-tile loop of `capture_loop`: record the tile's
hash in the fresh map and, if the tile changed, append its compressed data. -/
def scanStep (hashFn : List Nat → List Nat) (compressFn : Img → List Nat)
    (first : Bool) (prev : Nat × Nat → Option (List Nat))
    (acc : TileScan) (t : Nat × Nat × Img) : TileScan :=
  let h := hashTile hashFn t.2.2
  let nh := fun k => if k = (t.1, t.2.1) then some h else acc.newHashes k
  if tileChangedNow first prev hashFn t then
    ⟨nh, acc.changed ++ [(t.1, t.2.1, t.2.2, compressFn t.2.2)], acc.numChanged + 1⟩
  else
    ⟨nh, acc.changed, acc.numChanged⟩

/-- The per-tile loop of `capture_loop` over the partitioned tiles, starting
from an empty `new_tile_hashes` map and empty changed list. -/
def scanTiles (hashFn : List Nat → List Nat) (compressFn : Img → List Nat)
    (first : Bool) (prev : Nat × Nat → Option (List Nat))
    (tiles : List (Nat × Nat × Img)) : TileScan :=
  tiles.foldl (scanStep hashFn compressFn first prev) ⟨fun _ => none, [], 0⟩

/-- The frame-id update of `capture_loop`:
`self._frame_id = (self._frame_id + 1) % 0xFFFFFFFF`. -/
def nextFrameId (frameId : Nat) : Nat := (frameId + 1) % 0xFFFFFFFF

/-- The mutable engine state that the claims speak about: the frame id and
the previous-hash map `_prev_tile_hashes`. -/
structure ServerState where
  frameId : Nat
  prevTileHashes : Nat × Nat → Option (List Nat)

/-- The immutable capture configuration of `ServerNetworkManager`. -/
structure ServerCfg where
  tileSize : Nat
  fallbackThreshold : ℚ

/-- One iteration of `ServerNetworkManager.capture_loop` on a captured image:
bump the frame id, partition and scan the tiles, replace the previous-hash
map wholesale, then pack either a keyframe (when
`num_changed_tiles > fallback_threshold * total_tiles`) or a delta of the
changed tiles. Returns the new state, the new `first_frame` flag, and the
packed payload. `hashFn`, `compressFn` (WebP) and `jpegFn` (JPEG) model the
external hashlib/PIL collaborators. -/
def captureIteration (hashFn : List Nat → List Nat) (compressFn : Img → List Nat)
    (jpegFn : Img → List Nat) (cfg : ServerCfg) (st : ServerState) (first : Bool)
    (img : Img) : ServerState × Bool × Except String (List Nat) :=
  let fid := nextFrameId st.frameId
  let tiles := partitionScreen cfg.tileSize img
  let scan := scanTiles hashFn compressFn first st.prevTileHashes tiles
  let st' : ServerState := ⟨fid, scan.newHashes⟩
  let payload :=
    if (scan.numChanged : ℚ) > cfg.fallbackThreshold * tiles.length then
      packDeltaPayload fid [] (some (jpegFn img))
    else
      packDeltaPayload fid scan.changed none
  (st', false, payload)

/-- A decoded inbound JSON message on the server, after `json.loads` in
`_process_message`: an input event, a command, a JSON object of another
type, or malformed JSON. -/
inductive ServerMsg where
  | input (payload : List (String × Int))
  | command (cmd : String)
  | otherType
  | malformed

/-- `ServerNetworkManager._process_message` on a decoded message from the
session `sender`: a `redraw_full_frame` command captures a fresh frame,
packs it as a keyframe with the current frame id and sends it to `sender`
only; every other message leaves the state unchanged and sends nothing
(input events go to the external input handler, unknown commands and
malformed JSON are logged). A packing exception is caught, sending
nothing. Returns the state and the list of `(session, payload)` sends. -/
def processMessage (jpegFn : Img → List Nat) (st : ServerState) (sender : Nat)
    (msg : ServerMsg) (screen : Img) : ServerState × List (Nat × List Nat) :=
  match msg with
  | .command cmd =>
    if cmd = "redraw_full_frame" then
      match packDeltaPayload st.frameId [] (some (jpegFn screen)) with
      | .ok payload => (st, [(sender, payload)])
      | .error _ => (st, [])
    else (st, [])
  | _ => (st, [])

/-- The client-side configuration of `ClientNetworkManager` relevant to
screen reconstruction. -/
structure ClientCfg where
  tileSize : Nat
  defaultWidth : Nat
  defaultHeight : Nat

/-- The viewer's paste loop over decoded delta tiles: each tile is decoded
with the external decoder and pasted at pixel `(x_idx * T, y_idx * T)` for
the client's configured tile size `T`. -/
def pasteTiles (decodeFn : List Nat → Img) (tileSize : Nat) (base : Img)
    (tiles : List TileEntry) : Img :=
  tiles.foldl (fun buf t => buf.paste (decodeFn t.2.2.2.2) (t.1 * tileSize) (t.2.1 * tileSize)) base

/-- `ClientNetworkManager._handle_screen` projected onto the screen buffer:
unpack the payload; on a truthy full image replace the buffer with the
decoded image; on a non-empty tile list initialize a default black buffer
if none exists and paste every tile; on an empty delta only ensure a
buffer exists; any unpacking error is caught, leaving the buffer as it
was. `decodeFn` models PIL `Image.open` on compressed bytes. -/
def handleScreen (decodeFn : List Nat → Img) (cfg : ClientCfg)
    (buffer : Option Img) (payload : List Nat) : Option Img :=
  match unpackDeltaPayload payload with
  | .error _ => buffer
  | .ok (_, changedTiles, fullImageBytes) =>
    if pyTruthy fullImageBytes then
      some (decodeFn (fullImageBytes.getD []))
    else if !changedTiles.isEmpty then
      let base := buffer.getD (blackImage cfg.defaultWidth cfg.defaultHeight)
      some (pasteTiles decodeFn cfg.tileSize base changedTiles)
    else
      some (buffer.getD (blackImage cfg.defaultWidth cfg.defaultHeight))

/-- The connection status enum of the program: it has exactly the two
states `CONNECTED` and `DISCONNECTED`. -/
inductive ConnStatus where
  | connected
  | disconnected
deriving DecidableEq

/-- The client state the connection claims speak about: the status, the
reconnect delay and the screen buffer. -/
structure ViewerState where
  status : ConnStatus
  reconnectDelay : ℚ
  buffer : Option Img

/-- The retry loop of `ClientNetworkManager.connect` driven by a list of
attempt outcomes (`true` = the websocket connect succeeded). On failure it
sleeps for the current delay and then doubles it, capped at 60; on success
it executes `self._reconnect_delay = self._reconnect_delay` (a
self-assignment) and breaks. Returns the list of sleep durations and the
final reconnect delay. -/
def connectRun (delay : ℚ) : List Bool → List ℚ × ℚ
  | [] => ([], delay)
  | ok :: rest =>
    if ok then ([], delay)
    else
      let next := connectRun (min (delay * 2) 60) rest
      (delay :: next.1, next.2)

/-- How the receive loop of `ClientNetworkManager._receive_loop` ends:
the server closed the connection, or an unexpected exception. -/
inductive LoopEnd where
  | remoteClosed
  | receiveError

/-- A run of `ClientNetworkManager._receive_loop`: process each inbound
binary payload through `_handle_screen`, and when the connection ends
(for either reason) the `finally` block sets the status to
`DISCONNECTED` and the coroutine returns. The boolean records whether the
loop initiates any further connection attempt: it never does — no code
path re-invokes `connect` after the receive loop terminates. -/
def receiveLoopRun (decodeFn : List Nat → Img) (cfg : ClientCfg)
    (st : ViewerState) (payloads : List (List Nat)) (_ending : LoopEnd) :
    ViewerState × Bool :=
  let st' := payloads.foldl
    (fun s p => { s with buffer := handleScreen decodeFn cfg s.buffer p }) st
  (({ st' with status := .disconnected }, false))

/-- The bounds `struct.pack` enforces for one tile entry's header fields. -/
abbrev tileFits (t : ChangedTile) : Prop :=
  t.1 < 65536 ∧ t.2.1 < 65536 ∧ t.2.2.1.width < 65536 ∧ t.2.2.1.height < 65536 ∧
    t.2.2.2.length < 4294967296

/-- The bytes `packTileChunk` produces when all fields fit. -/
def chunkBytes : ChangedTile → List Nat
  | (x, y, timg, data) =>
    u16be x ++ (u16be y ++ (u16be timg.width ++ (u16be timg.height ++
      (u32be data.length ++ data))))

/-- Spec-side definition for the changed set of claim C1 (testable property
2 of the spec): a tile counts as changed when its fingerprint differs from
the previous-hash map's entry at the same key, absence counting as
different. -/
def fingerprintDiffers (hashFn : List Nat → List Nat)
    (prev : Nat × Nat → Option (List Nat)) (t : Nat × Nat × Img) : Bool :=
  decide (prev (t.1, t.2.1) ≠ some (hashTile hashFn t.2.2))

/-- Spec-side definition of `C`: the number of changed tiles of a frame. -/
def changedCount (hashFn : List Nat → List Nat)
    (prev : Nat × Nat → Option (List Nat)) (tiles : List (Nat × Nat × Img)) : Nat :=
  (tiles.filter (fingerprintDiffers hashFn prev)).length

/-! ## Byte-level lemmas -/

theorem u16be_length (n : Nat) : (u16be n).length = 2 := rfl

theorem u32be_length (n : Nat) : (u32be n).length = 4 := rfl

theorem u16be_beVal (n : Nat) (h : n < 65536) : beVal (u16be n) = n := by
  simp [beVal, u16be, List.foldl]
  omega

theorem u32be_beVal (n : Nat) (h : n < 4294967296) : beVal (u32be n) = n := by
  simp [beVal, u32be, List.foldl]
  omega

theorem packTileChunk_ok (t : ChangedTile) (h : tileFits t) :
    packTileChunk t = .ok (chunkBytes t) := by
  obtain ⟨x, y, timg, data⟩ := t
  obtain ⟨h1, h2, h3, h4, h5⟩ := h
  simp [packTileChunk, chunkBytes, h1, h2, h3, h4, h5]

theorem mapM_packTileChunk (ts : List ChangedTile) (h : ∀ t ∈ ts, tileFits t) :
    ts.mapM packTileChunk = .ok (ts.map chunkBytes) := by
  induction ts with
  | nil => rfl
  | cons a l ih =>
    have ha : tileFits a := h a (List.mem_cons_self a l)
    have hl : ∀ t ∈ l, tileFits t := fun t ht => h t (List.mem_cons_of_mem a ht)
    simp only [List.mapM_cons, ih hl, List.map_cons, packTileChunk_ok a ha]
    rfl

theorem parseTiles_packed (ts : List ChangedTile) (h : ∀ t ∈ ts, tileFits t)
    (rest : List Nat) :
    parseTiles ts.length ((ts.map chunkBytes).flatten ++ rest) = .ok (ts.map toEntry) := by
  induction ts generalizing rest with
  | nil => simp [parseTiles]
  | cons t ts ih =>
    obtain ⟨x, y, timg, data⟩ := t
    obtain ⟨h1, h2, h3, h4, h5⟩ := h _ (List.mem_cons_self _ _)
    have hts : ∀ u ∈ ts, tileFits u := fun u hu => h u (List.mem_cons_of_mem _ hu)
    set hdr12 : List Nat := u16be x ++ (u16be y ++ (u16be timg.width ++
      (u16be timg.height ++ u32be data.length))) with hdr12_def
    set R : List Nat := (ts.map chunkBytes).flatten ++ rest with R_def
    have hbuf : (((x, y, timg, data) :: ts).map chunkBytes).flatten ++ rest =
        hdr12 ++ (data ++ R) := by
      simp [chunkBytes, R_def, hdr12_def, List.append_assoc]
    have hlen12 : hdr12.length = 12 := by simp [hdr12_def, u16be, u32be]
    have htake : (hdr12 ++ (data ++ R)).take 12 = hdr12 := List.take_left' hlen12
    have hdrop : (hdr12 ++ (data ++ R)).drop 12 = data ++ R := List.drop_left' hlen12
    have hx : hdr12.take 2 = u16be x := List.take_left' rfl
    have hd2 : hdr12.drop 2 = u16be y ++ (u16be timg.width ++
        (u16be timg.height ++ u32be data.length)) := List.drop_left' rfl
    have hy : (hdr12.drop 2).take 2 = u16be y := by
      rw [hd2]; exact List.take_left' rfl
    have hd4 : hdr12.drop 4 = u16be timg.width ++ (u16be timg.height ++ u32be data.length) := by
      have : hdr12 = (u16be x ++ u16be y) ++ (u16be timg.width ++
          (u16be timg.height ++ u32be data.length)) := by
        simp [hdr12_def, List.append_assoc]
      rw [this]; exact List.drop_left' (by simp [u16be])
    have hw : (hdr12.drop 4).take 2 = u16be timg.width := by
      rw [hd4]; exact List.take_left' rfl
    have hd6 : hdr12.drop 6 = u16be timg.height ++ u32be data.length := by
      have : hdr12 = (u16be x ++ (u16be y ++ u16be timg.width)) ++
          (u16be timg.height ++ u32be data.length) := by
        simp [hdr12_def, List.append_assoc]
      rw [this]; exact List.drop_left' (by simp [u16be])
    have hh : (hdr12.drop 6).take 2 = u16be timg.height := by
      rw [hd6]; exact List.take_left' rfl
    have hd8 : hdr12.drop 8 = u32be data.length := by
      have : hdr12 = (u16be x ++ (u16be y ++ (u16be timg.width ++ u16be timg.height))) ++
          u32be data.length := by
        simp [hdr12_def, List.append_assoc]
      rw [this]; exact List.drop_left' (by simp [u16be])
    have hdata : (data ++ R).take data.length = data := List.take_left' rfl
    have hdropdata : (data ++ R).drop data.length = R := List.drop_left' rfl
    show parseTiles (ts.length + 1) ((((x, y, timg, data) :: ts).map chunkBytes).flatten ++ rest) =
      .ok (((x, y, timg, data) :: ts).map toEntry)
    rw [hbuf]
    simp only [parseTiles, htake, hlen12, hdrop, hx, hy, hw, hh, hd8,
      u16be_beVal x h1, u16be_beVal y h2, u16be_beVal _ h3, u16be_beVal _ h4,
      u32be_beVal _ h5, hdata, hdropdata]
    simp [ih hts, toEntry, Except.map]

theorem packDeltaPayload_delta (fid : Nat) (ts : List ChangedTile)
    (hfid : fid < 4294967296) (hn : ts.length < 65536) (h : ∀ t ∈ ts, tileFits t) :
    packDeltaPayload fid ts none =
      .ok (0 :: (u32be fid ++ u16be ts.length ++ (ts.map chunkBytes).flatten)) := by
  have hnone : pyTruthy none = false := rfl
  simp only [packDeltaPayload, hnone, Bool.false_eq_true, if_false]
  rw [if_pos ⟨hfid, hn⟩, mapM_packTileChunk ts h]
  simp [Except.map, List.append_assoc]

theorem packDeltaPayload_keyframe (fid : Nat) (ts : List ChangedTile) (img : List Nat)
    (hfid : fid < 4294967296) (himg : img ≠ []) :
    packDeltaPayload fid ts (some img) = .ok (1 :: (u32be fid ++ img)) := by
  have htruthy : pyTruthy (some img) = true := by
    cases img with
    | nil => exact absurd rfl himg
    | cons a l => rfl
  simp only [packDeltaPayload, htruthy, if_true]
  rw [if_pos hfid]
  simp

theorem unpack_keyframe_bytes (fid : Nat) (img : List Nat) (hfid : fid < 4294967296) :
    unpackDeltaPayload (1 :: (u32be fid ++ img)) = .ok (fid, [], some img) := by
  have hlen1 : ¬ ((1 :: (u32be fid ++ img)).length < 1) := by simp
  have e1 : beVal ((1 :: (u32be fid ++ img)).take 1) = 1 := rfl
  have e2 : (1 :: (u32be fid ++ img)).drop 1 = u32be fid ++ img := rfl
  have hlen4 : ¬ ((u32be fid ++ img).length < 4) := by simp [u32be]
  have e3 : (u32be fid ++ img).take 4 = u32be fid := List.take_left' rfl
  have e4 : (u32be fid ++ img).drop 4 = img := List.drop_left' rfl
  simp only [unpackDeltaPayload]
  rw [if_neg hlen1, e1, e2, if_pos rfl, if_neg hlen4, e3, e4, u32be_beVal fid hfid]

theorem unpack_delta_bytes (fid : Nat) (ts : List ChangedTile)
    (hfid : fid < 4294967296) (hn : ts.length < 65536) (h : ∀ t ∈ ts, tileFits t) :
    unpackDeltaPayload (0 :: (u32be fid ++ u16be ts.length ++ (ts.map chunkBytes).flatten)) =
      .ok (fid, ts.map toEntry, none) := by
  have hsplit : u32be fid ++ u16be ts.length ++ (ts.map chunkBytes).flatten =
      u32be fid ++ (u16be ts.length ++ (ts.map chunkBytes).flatten) := by
    simp [List.append_assoc]
  have htake : (u32be fid ++ (u16be ts.length ++ (ts.map chunkBytes).flatten)).take 4 =
      u32be fid := List.take_left' rfl
  have hdrop : (u32be fid ++ (u16be ts.length ++ (ts.map chunkBytes).flatten)).drop 4 =
      u16be ts.length ++ (ts.map chunkBytes).flatten := List.drop_left' rfl
  have hlen4 : ¬ (u32be fid ++ (u16be ts.length ++ (ts.map chunkBytes).flatten)).length < 4 := by
    simp [u32be]
  have htake2 : (u16be ts.length ++ (ts.map chunkBytes).flatten).take 2 = u16be ts.length :=
    List.take_left' rfl
  have hdrop2 : (u16be ts.length ++ (ts.map chunkBytes).flatten).drop 2 =
      (ts.map chunkBytes).flatten := List.drop_left' rfl
  have hlen2 : ¬ (u16be ts.length ++ (ts.map chunkBytes).flatten).length < 2 := by
    simp [u16be]
  have hparse := parseTiles_packed ts h []
  rw [List.append_nil] at hparse
  rw [hsplit]
  set L : List Nat := u32be fid ++ (u16be ts.length ++ (ts.map chunkBytes).flatten) with L_def
  have hlen1 : ¬ ((0 :: L).length < 1) := by simp
  have e1 : beVal ((0 :: L).take 1) = 0 := rfl
  have e2 : (0 :: L).drop 1 = L := rfl
  simp only [unpackDeltaPayload]
  rw [if_neg hlen1, e1, e2]
  rw [if_neg (by norm_num), if_pos rfl, if_neg hlen4, htake, hdrop, if_neg hlen2,
    htake2, hdrop2, u32be_beVal fid hfid, u16be_beVal _ hn, hparse]
  rfl

/-- C2: every binary frame the host packs — a keyframe from a frame id and a
non-empty compressed image, or a delta from a frame id and tile entries whose
fields fit the wire widths — unpacks to exactly the same frame id, tile list
(coordinates, dimensions and bytes, in order) or full-image bytes. -/
theorem pack_unpack_roundtrip :
    (∀ fid tiles img, fid < 4294967296 → img ≠ ([] : List Nat) →
      ∃ p, packDeltaPayload fid tiles (some img) = .ok p ∧
        unpackDeltaPayload p = .ok (fid, [], some img)) ∧
    (∀ fid tiles, fid < 4294967296 → tiles.length < 65536 → (∀ t ∈ tiles, tileFits t) →
      ∃ p, packDeltaPayload fid tiles none = .ok p ∧
        unpackDeltaPayload p = .ok (fid, tiles.map toEntry, none)) := by
  constructor
  · intro fid tiles img hfid himg
    exact ⟨_, packDeltaPayload_keyframe fid tiles img hfid himg,
      unpack_keyframe_bytes fid img hfid⟩
  · intro fid tiles hfid hn h
    exact ⟨_, packDeltaPayload_delta fid tiles hfid hn h,
      unpack_delta_bytes fid tiles hfid hn h⟩

/-- Witness for C2 at a concrete keyframe and a concrete one-tile delta. -/
theorem pack_unpack_roundtrip_witness :
    (∃ p, packDeltaPayload 7 [] (some [9]) = .ok p ∧
      unpackDeltaPayload p = .ok (7, [], some [9])) ∧
    (∃ p, packDeltaPayload 7 [(1, 2, ⟨3, 4, fun _ _ => (0, 0, 0)⟩, [5, 6])] none = .ok p ∧
      unpackDeltaPayload p = .ok (7, [(1, 2, 3, 4, [5, 6])], none)) := by
  constructor
  · exact pack_unpack_roundtrip.1 7 [] [9] (by decide) (by decide)
  · have h := pack_unpack_roundtrip.2 7 [(1, 2, ⟨3, 4, fun _ _ => (0, 0, 0)⟩, [5, 6])]
      (by decide) (by decide)
      (by
        intro t ht
        simp only [List.mem_singleton] at ht
        subst ht
        exact ⟨by decide, by decide, by decide, by decide, by decide⟩)
    simpa [toEntry] using h

/-- C10: the pack function selects the keyframe format by Python truthiness
of the full-image argument, so packing with a zero-length full image yields
the very same delta record as packing with no full image: leading byte
`0x00` and the tile list's count in the `n_tiles` field — never a keyframe
record. -/
theorem empty_keyframe_packs_as_delta (fid : Nat) (tiles : List ChangedTile)
    (p : List Nat) (hp : packDeltaPayload fid tiles (some []) = .ok p) :
    packDeltaPayload fid tiles none = .ok p ∧ p.head? = some 0 ∧
      (p.drop 5).take 2 = u16be tiles.length := by
  have hsame : packDeltaPayload fid tiles (some []) = packDeltaPayload fid tiles none := by
    simp [packDeltaPayload, pyTruthy]
  rw [hsame] at hp
  have hshape : ∃ chunks : List (List Nat),
      p = 0 :: (u32be fid ++ u16be tiles.length ++ chunks.flatten) := by
    rw [packDeltaPayload] at hp
    simp only [pyTruthy, Bool.false_eq_true, if_false] at hp
    by_cases hc : fid < 4294967296 ∧ tiles.length < 65536
    · rw [if_pos hc] at hp
      cases hmap : tiles.mapM packTileChunk with
      | error e => rw [hmap] at hp; simp [Except.map] at hp
      | ok chunks =>
        rw [hmap] at hp
        simp only [Except.map, Except.ok.injEq] at hp
        exact ⟨chunks, hp.symm⟩
    · rw [if_neg hc] at hp
      simp at hp
  obtain ⟨chunks, rfl⟩ := hshape
  refine ⟨hp, rfl, ?_⟩
  show ((u32be fid ++ u16be tiles.length ++ chunks.flatten).drop 4).take 2 = u16be tiles.length
  have h1 : (u32be fid ++ u16be tiles.length ++ chunks.flatten).drop 4 =
      u16be tiles.length ++ chunks.flatten := by
    rw [List.append_assoc]
    exact List.drop_left' rfl
  rw [h1]
  exact List.take_left' rfl

/-- Witness for C10 at frame id 5 with an empty tile list. -/
theorem empty_keyframe_packs_as_delta_witness :
    packDeltaPayload 5 [] none = .ok [0, 0, 0, 0, 5, 0, 0] ∧
      ([0, 0, 0, 0, 5, 0, 0] : List Nat).head? = some 0 ∧
      (([0, 0, 0, 0, 5, 0, 0] : List Nat).drop 5).take 2 = u16be 0 :=
  empty_keyframe_packs_as_delta 5 [] [0, 0, 0, 0, 5, 0, 0] rfl

/-! ## Server message handling, frame id, and client connection claims -/

/-- C4: a `redraw_full_frame` command from a connected viewer makes the host
send one keyframe to that session and to no other; the keyframe carries the
engine's current frame id, and the handler leaves the server state — the
previous-hash map and the frame id counter — unchanged. -/
theorem redraw_targets_requester_only (jpegFn : Img → List Nat) (st : ServerState)
    (sender : Nat) (screen : Img) (hfid : st.frameId < 4294967296)
    (hjpeg : jpegFn screen ≠ []) :
    ∃ payload,
      processMessage jpegFn st sender (.command "redraw_full_frame") screen =
        (st, [(sender, payload)]) ∧
      payload.head? = some 1 ∧
      unpackDeltaPayload payload = .ok (st.frameId, [], some (jpegFn screen)) := by
  refine ⟨1 :: (u32be st.frameId ++ jpegFn screen), ?_, rfl, ?_⟩
  · simp [processMessage, packDeltaPayload_keyframe _ _ _ hfid hjpeg]
  · exact unpack_keyframe_bytes _ _ hfid

/-- Witness for C4 at frame id 3 with a one-byte compressed image. -/
theorem redraw_targets_requester_only_witness :
    ∃ payload,
      processMessage (fun _ => [7]) ⟨3, fun _ => none⟩ 0
          (.command "redraw_full_frame") (blackImage 1 1) =
        (⟨3, fun _ => none⟩, [(0, payload)]) ∧
      payload.head? = some 1 ∧
      unpackDeltaPayload payload = .ok (3, [], some [7]) :=
  redraw_targets_requester_only (fun _ => [7]) ⟨3, fun _ => none⟩ 0 (blackImage 1 1)
    (by decide) (by decide)

/-- C6 (code bug): the capture loop advances the frame id with
`(frame_id + 1) % 0xFFFFFFFF`, i.e. modulo 2^32 - 1 rather than modulo
2^32: at frame id 4294967294 the next id is 0 instead of 4294967295, and
the value 4294967295 is never produced by the update, so not every value
in [0, 2^32 - 1] is reachable. -/
theorem frame_id_wrap_off_by_one :
    nextFrameId 4294967294 = 0 ∧ nextFrameId 4294967294 ≠ (4294967294 + 1) % 2 ^ 32 ∧
      ∀ fid : Nat, nextFrameId fid ≠ 4294967295 := by
  refine ⟨by decide, by decide, fun fid => ?_⟩
  simp only [nextFrameId]
  intro h
  have hlt : (fid + 1) % 0xFFFFFFFF < 0xFFFFFFFF := Nat.mod_lt _ (by norm_num)
  omega

/-- C7 (code bug): each failed connect attempt sleeps for the current
back-off delay and then doubles it, capped at 60 seconds — from the default
initial delay 1 the sleeps are 1, 2, 4, 8, 16, 32, 60, 60 — but a
successful connection does not reset the delay to its initial value: the
line meant to reset it assigns `self._reconnect_delay` to itself, so after
eight failures and a success the delay is still 60, not 1. -/
theorem reconnect_delay_not_reset :
    connectRun 1 [false, false, false, false, false, false, false, false, true] =
      ([1, 2, 4, 8, 16, 32, 60, 60], 60) ∧ (60 : ℚ) ≠ 1 := by
  constructor
  · norm_num [connectRun]
  · norm_num

/-- C8 counterexample: after a remote transport close of an established
session, the receive loop does not initiate any reconnection — the claim
that the viewer returns to a connecting state and resumes attempts fails
at this concrete run. -/
theorem remote_close_no_reconnect_counterexample :
    ¬ ((receiveLoopRun (fun _ => blackImage 1 1) ⟨64, 1920, 1080⟩
        ⟨.connected, 1, none⟩ [] .remoteClosed).2 = true) ∧
    (receiveLoopRun (fun _ => blackImage 1 1) ⟨64, 1920, 1080⟩
        ⟨.connected, 1, none⟩ [] .remoteClosed).1.status = .disconnected := by
  exact ⟨by decide, rfl⟩

/-- C8 amended: when an established viewer session ends — a remote
transport close included — the receive loop terminates with the status set
to Disconnected and initiates no further connection attempt; reconnection
with back-off happens only inside the initial `connect` call. -/
theorem remote_close_disconnects_no_reconnect (decodeFn : List Nat → Img)
    (cfg : ClientCfg) (st : ViewerState) (payloads : List (List Nat)) (ending : LoopEnd) :
    (receiveLoopRun decodeFn cfg st payloads ending).1.status = .disconnected ∧
      (receiveLoopRun decodeFn cfg st payloads ending).2 = false :=
  ⟨rfl, rfl⟩

/-- C9: whenever unpacking a received binary payload fails, the screen
handler catches the error and the local screen buffer is exactly
unchanged — unpacking runs to completion before any tile is pasted, so a
malformed frame never applies a partial update. -/
theorem malformed_payload_leaves_buffer (decodeFn : List Nat → Img) (cfg : ClientCfg)
    (buffer : Option Img) (payload : List Nat) (e : String)
    (h : unpackDeltaPayload payload = .error e) :
    handleScreen decodeFn cfg buffer payload = buffer := by
  simp [handleScreen, h]

/-- Witness for C9 at the unknown leading type byte 2 with a non-empty
buffer. -/
theorem malformed_payload_leaves_buffer_witness :
    handleScreen (fun _ => blackImage 1 1) ⟨64, 1920, 1080⟩ (some (blackImage 2 2)) [2] =
      some (blackImage 2 2) :=
  malformed_payload_leaves_buffer (fun _ => blackImage 1 1) ⟨64, 1920, 1080⟩
    (some (blackImage 2 2)) [2] "unknown frame type" rfl

/-! ## Viewer screen reconstruction -/

theorem pasteTiles_width (decodeFn : List Nat → Img) (tileSize : Nat)
    (ts : List TileEntry) : ∀ base : Img,
    (pasteTiles decodeFn tileSize base ts).width = base.width := by
  induction ts with
  | nil => intro base; rfl
  | cons t ts ih =>
    intro base
    exact ih (base.paste (decodeFn t.2.2.2.2) (t.1 * tileSize) (t.2.1 * tileSize))

theorem pasteTiles_height (decodeFn : List Nat → Img) (tileSize : Nat)
    (ts : List TileEntry) : ∀ base : Img,
    (pasteTiles decodeFn tileSize base ts).height = base.height := by
  induction ts with
  | nil => intro base; rfl
  | cons t ts ih =>
    intro base
    exact ih (base.paste (decodeFn t.2.2.2.2) (t.1 * tileSize) (t.2.1 * tileSize))

/-- C5: a viewer with no screen buffer yet that receives a delta frame with
at least one tile entry first creates a buffer of the configured default
dimensions filled black (1920 by 1080 under the default configuration) and
pastes each decoded tile at pixel `(tx * T, ty * T)` for its configured tile
size `T`, completing without error: the handler returns the pasted buffer,
whose dimensions are the configured defaults. -/
theorem delta_before_keyframe_default_buffer (decodeFn : List Nat → Img)
    (cfg : ClientCfg) (payload : List Nat) (fid : Nat) (t : TileEntry)
    (ts : List TileEntry)
    (h : unpackDeltaPayload payload = .ok (fid, t :: ts, none)) :
    handleScreen decodeFn cfg none payload =
      some (pasteTiles decodeFn cfg.tileSize
        (blackImage cfg.defaultWidth cfg.defaultHeight) (t :: ts)) ∧
    (handleScreen decodeFn cfg none payload).map Img.width = some cfg.defaultWidth ∧
    (handleScreen decodeFn cfg none payload).map Img.height = some cfg.defaultHeight := by
  have hmain : handleScreen decodeFn cfg none payload =
      some (pasteTiles decodeFn cfg.tileSize
        (blackImage cfg.defaultWidth cfg.defaultHeight) (t :: ts)) := by
    simp [handleScreen, h, pyTruthy]
  refine ⟨hmain, ?_, ?_⟩
  · rw [hmain]
    simp [pasteTiles_width, blackImage]
  · rw [hmain]
    simp [pasteTiles_height, blackImage]

/-- Witness for C5: a concrete delta payload with one tile at grid cell
`(2, 3)` handed to a fresh viewer with the default configuration. -/
theorem delta_before_keyframe_default_buffer_witness :
    handleScreen (fun _ => blackImage 1 1) ⟨64, 1920, 1080⟩ none
        [0, 0, 0, 0, 7, 0, 1, 0, 2, 0, 3, 0, 1, 0, 1, 0, 0, 0, 1, 99] =
      some (pasteTiles (fun _ => blackImage 1 1) 64 (blackImage 1920 1080)
        [(2, 3, 1, 1, [99])]) ∧
    (handleScreen (fun _ => blackImage 1 1) ⟨64, 1920, 1080⟩ none
        [0, 0, 0, 0, 7, 0, 1, 0, 2, 0, 3, 0, 1, 0, 1, 0, 0, 0, 1, 99]).map Img.width =
      some 1920 ∧
    (handleScreen (fun _ => blackImage 1 1) ⟨64, 1920, 1080⟩ none
        [0, 0, 0, 0, 7, 0, 1, 0, 2, 0, 3, 0, 1, 0, 1, 0, 0, 0, 1, 99]).map Img.height =
      some 1080 :=
  delta_before_keyframe_default_buffer (fun _ => blackImage 1 1) ⟨64, 1920, 1080⟩
    [0, 0, 0, 0, 7, 0, 1, 0, 2, 0, 3, 0, 1, 0, 1, 0, 0, 0, 1, 99] 7 (2, 3, 1, 1, [99]) [] rfl

/-! ## Capture loop: the previous-hash map and the keyframe decision -/

theorem flatMap_congruence {α β : Type} (l : List α) (f g : α → List β)
    (h : ∀ a ∈ l, f a = g a) : l.flatMap f = l.flatMap g := by
  induction l with
  | nil => rfl
  | cons a t ih =>
    simp only [List.flatMap_cons]
    rw [h a (List.mem_cons_self a t), ih fun b hb => h b (List.mem_cons_of_mem a hb)]

theorem partitionScreen_eq (T : Nat) (hT : 0 < T) (img : Img) :
    partitionScreen T img =
      (List.range (gridCount img.height T)).flatMap fun j =>
        (List.range (gridCount img.width T)).map fun i => (i, j, tileAt T img i j) := by
  unfold partitionScreen rangeStep gridCount
  rw [List.flatMap_map]
  refine flatMap_congruence _ _ _ fun j _ => ?_
  rw [List.map_map]
  refine List.map_congr_left fun i _ => ?_
  simp only [Function.comp_apply]
  rw [Nat.mul_div_cancel i hT, Nat.mul_div_cancel j hT]
  rfl

theorem scanStep_newHashes (hashFn : List Nat → List Nat) (compressFn : Img → List Nat)
    (first : Bool) (prev : Nat × Nat → Option (List Nat)) (acc : TileScan)
    (t : Nat × Nat × Img) :
    (scanStep hashFn compressFn first prev acc t).newHashes =
      fun k => if k = (t.1, t.2.1) then some (hashTile hashFn t.2.2)
        else acc.newHashes k := by
  unfold scanStep
  by_cases h : tileChangedNow first prev hashFn t = true <;> simp [h]

theorem scanFold_row_newHashes (hashFn : List Nat → List Nat)
    (compressFn : Img → List Nat) (first : Bool)
    (prev : Nat × Nat → Option (List Nat)) (T : Nat) (img : Img) (j a b : Nat) :
    ∀ (gw : Nat) (acc : TileScan),
      (((List.range gw).map fun i => (i, j, tileAt T img i j)).foldl
          (scanStep hashFn compressFn first prev) acc).newHashes (a, b) =
        if b = j ∧ a < gw then some (hashTile hashFn (tileAt T img a j))
        else acc.newHashes (a, b) := by
  intro gw
  induction gw with
  | zero => intro acc; simp
  | succ n ih =>
    intro acc
    rw [show (n + 1) = Nat.succ n from rfl, List.range_succ, List.map_append,
      List.foldl_append]
    simp only [List.map_cons, List.map_nil, List.foldl_cons, List.foldl_nil]
    simp only [scanStep_newHashes]
    by_cases hab : a = n ∧ b = j
    · obtain ⟨rfl, rfl⟩ := hab
      rw [if_pos rfl, if_pos ⟨rfl, Nat.lt_succ_self a⟩]
    · have hne : ((a, b) : Nat × Nat) ≠ (n, j) := by
        simp only [Ne, Prod.mk.injEq]
        tauto
      rw [if_neg hne, ih acc]
      by_cases hbj : b = j ∧ a < n
      · rw [if_pos hbj, if_pos ⟨hbj.1, Nat.lt_succ_of_lt hbj.2⟩]
      · have hco : ¬ (b = j ∧ a < n + 1) := by
          intro hc
          have han : a ≠ n := fun hh => hab ⟨hh, hc.1⟩
          exact hbj ⟨hc.1, by omega⟩
        rw [if_neg hbj, if_neg hco]

theorem scanFold_grid_newHashes (hashFn : List Nat → List Nat)
    (compressFn : Img → List Nat) (first : Bool)
    (prev : Nat × Nat → Option (List Nat)) (T : Nat) (img : Img) (gw a b : Nat) :
    ∀ (gh : Nat) (acc : TileScan),
      (((List.range gh).flatMap fun j =>
          (List.range gw).map fun i => (i, j, tileAt T img i j)).foldl
          (scanStep hashFn compressFn first prev) acc).newHashes (a, b) =
        if a < gw ∧ b < gh then some (hashTile hashFn (tileAt T img a b))
        else acc.newHashes (a, b) := by
  intro gh
  induction gh with
  | zero => intro acc; simp
  | succ n ih =>
    intro acc
    rw [show (n + 1) = Nat.succ n from rfl, List.range_succ, List.flatMap_append,
      List.foldl_append]
    simp only [List.flatMap_cons, List.flatMap_nil, List.append_nil]
    rw [scanFold_row_newHashes, ih acc]
    by_cases hbn : b = n
    · subst hbn
      by_cases haw : a < gw
      · rw [if_pos ⟨rfl, haw⟩, if_pos ⟨haw, Nat.lt_succ_self b⟩]
      · have h1 : ¬ (b = b ∧ a < gw) := fun hc => haw hc.2
        have h2 : ¬ (a < gw ∧ b < b) := fun hc => haw hc.1
        have h3 : ¬ (a < gw ∧ b < b + 1) := fun hc => haw hc.1
        rw [if_neg h1, if_neg h2, if_neg h3]
    · have h1 : ¬ (b = n ∧ a < gw) := fun hc => hbn hc.1
      rw [if_neg h1]
      by_cases hc : a < gw ∧ b < n
      · rw [if_pos hc, if_pos ⟨hc.1, Nat.lt_succ_of_lt hc.2⟩]
      · have h3 : ¬ (a < gw ∧ b < n + 1) := by
          intro hh
          exact hc ⟨hh.1, by omega⟩
        rw [if_neg hc, if_neg h3]

/-- C3: after the capture loop processes a frame, the previous-hash map's
key set equals the full tile grid of the captured image — every grid
coordinate maps to the digest of that tile's raw pixel bytes in this frame,
and no other key is present. The right-hand side depends only on the
captured image, not on the old map: the map is replaced wholesale, never
partially updated. -/
theorem prev_hash_map_wholesale (hashFn : List Nat → List Nat)
    (compressFn : Img → List Nat) (jpegFn : Img → List Nat) (cfg : ServerCfg)
    (st : ServerState) (first : Bool) (img : Img) (hT : 0 < cfg.tileSize) :
    ((captureIteration hashFn compressFn jpegFn cfg st first img).1).prevTileHashes =
      fun k =>
        if k.1 < gridCount img.width cfg.tileSize ∧
            k.2 < gridCount img.height cfg.tileSize then
          some (hashTile hashFn (tileAt cfg.tileSize img k.1 k.2))
        else none := by
  funext k
  obtain ⟨a, b⟩ := k
  show (scanTiles hashFn compressFn first st.prevTileHashes
      (partitionScreen cfg.tileSize img)).newHashes (a, b) = _
  rw [partitionScreen_eq cfg.tileSize hT img]
  unfold scanTiles
  rw [scanFold_grid_newHashes]

/-- Witness for C3 on a 3 by 2 image with tile size 2 (a 2 by 1 tile grid
with partial tiles at the right edge), the identity digest function, and an
initially empty map. -/
theorem prev_hash_map_wholesale_witness :
    ((captureIteration (fun bs => bs) (fun _ => [0]) (fun _ => [1]) ⟨2, 7/10⟩
        ⟨0, fun _ => none⟩ true ⟨3, 2, fun i j => (i, j, 0)⟩).1).prevTileHashes =
      (fun k =>
        if k.1 < gridCount 3 2 ∧ k.2 < gridCount 2 2 then
          some (hashTile (fun bs => bs) (tileAt 2 ⟨3, 2, fun i j => (i, j, 0)⟩ k.1 k.2))
        else none) :=
  prev_hash_map_wholesale (fun bs => bs) (fun _ => [0]) (fun _ => [1]) ⟨2, 7/10⟩
    ⟨0, fun _ => none⟩ true ⟨3, 2, fun i j => (i, j, 0)⟩ (by decide)

theorem scanFold_changed (hashFn : List Nat → List Nat) (compressFn : Img → List Nat)
    (first : Bool) (prev : Nat × Nat → Option (List Nat))
    (tiles : List (Nat × Nat × Img)) :
    ∀ acc : TileScan,
      (tiles.foldl (scanStep hashFn compressFn first prev) acc).changed =
        acc.changed ++ (tiles.filter (tileChangedNow first prev hashFn)).map
          (fun t => (t.1, t.2.1, t.2.2, compressFn t.2.2)) := by
  induction tiles with
  | nil => intro acc; simp
  | cons t ts ih =>
    intro acc
    rw [List.foldl_cons, ih]
    by_cases h : tileChangedNow first prev hashFn t = true
    · simp [scanStep, h, List.filter_cons, List.append_assoc]
    · simp [scanStep, h, List.filter_cons]

theorem scanFold_numChanged (hashFn : List Nat → List Nat) (compressFn : Img → List Nat)
    (first : Bool) (prev : Nat × Nat → Option (List Nat))
    (tiles : List (Nat × Nat × Img)) :
    ∀ acc : TileScan,
      (tiles.foldl (scanStep hashFn compressFn first prev) acc).numChanged =
        acc.numChanged + (tiles.filter (tileChangedNow first prev hashFn)).length := by
  induction tiles with
  | nil => intro acc; simp
  | cons t ts ih =>
    intro acc
    rw [List.foldl_cons, ih]
    by_cases h : tileChangedNow first prev hashFn t = true
    · simp only [scanStep, h, if_true, List.filter_cons, List.length_cons]
      omega
    · simp only [scanStep, h]
      simp [List.filter_cons, h]

theorem tileChangedNow_eq_differs (hashFn : List Nat → List Nat) (first : Bool)
    (prev : Nat × Nat → Option (List Nat))
    (hfp : first = false ∨ prev = fun _ => none) (t : Nat × Nat × Img) :
    tileChangedNow first prev hashFn t = fingerprintDiffers hashFn prev t := by
  rcases hfp with rfl | rfl
  · simp [tileChangedNow, fingerprintDiffers]
  · simp [tileChangedNow, fingerprintDiffers]

/-- C1: for every captured frame, with `C` the number of tiles whose
fingerprint differs from the previous-hash map's entry at the same key
(absence counting as different) and `N > 0` the total tile count, the
capture loop emits a keyframe record (leading byte `0x01`) iff
`C / N > fallback_threshold`; otherwise it emits a delta record containing
exactly `C` tile entries whose coordinates come from the changed set, in
row-major (tile-iteration) order. The hypothesis on `first` covers the
program's reachable states: the `first_frame` flag is true only while the
previous-hash map is still empty. -/
theorem capture_emit_decision (hashFn : List Nat → List Nat)
    (compressFn : Img → List Nat) (jpegFn : Img → List Nat) (cfg : ServerCfg)
    (st : ServerState) (first : Bool) (img : Img)
    (hN : 0 < (partitionScreen cfg.tileSize img).length)
    (hN16 : (partitionScreen cfg.tileSize img).length < 65536)
    (hfp : first = false ∨ st.prevTileHashes = fun _ => none)
    (hjpeg : jpegFn img ≠ [])
    (hfits : ∀ t ∈ partitionScreen cfg.tileSize img,
      t.1 < 65536 ∧ t.2.1 < 65536 ∧ t.2.2.width < 65536 ∧ t.2.2.height < 65536 ∧
        (compressFn t.2.2).length < 4294967296) :
    ∃ p, (captureIteration hashFn compressFn jpegFn cfg st first img).2.2 = .ok p ∧
      (p.head? = some 1 ↔
        (changedCount hashFn st.prevTileHashes (partitionScreen cfg.tileSize img) : ℚ) /
          ((partitionScreen cfg.tileSize img).length : ℚ) > cfg.fallbackThreshold) ∧
      (¬ ((changedCount hashFn st.prevTileHashes (partitionScreen cfg.tileSize img) : ℚ) /
            ((partitionScreen cfg.tileSize img).length : ℚ) > cfg.fallbackThreshold) →
        unpackDeltaPayload p = .ok (nextFrameId st.frameId,
          ((partitionScreen cfg.tileSize img).filter
            (fingerprintDiffers hashFn st.prevTileHashes)).map
            (fun t => (t.1, t.2.1, t.2.2.width, t.2.2.height, compressFn t.2.2)),
          none) ∧
        (((partitionScreen cfg.tileSize img).filter
            (fingerprintDiffers hashFn st.prevTileHashes)).map
            (fun t => (t.1, t.2.1, t.2.2.width, t.2.2.height, compressFn t.2.2))).length =
          changedCount hashFn st.prevTileHashes (partitionScreen cfg.tileSize img)) := by
  have hpred : (partitionScreen cfg.tileSize img).filter
      (tileChangedNow first st.prevTileHashes hashFn) =
      (partitionScreen cfg.tileSize img).filter
        (fingerprintDiffers hashFn st.prevTileHashes) :=
    List.filter_congr fun t _ => tileChangedNow_eq_differs hashFn first st.prevTileHashes hfp t
  have hchanged : (scanTiles hashFn compressFn first st.prevTileHashes
      (partitionScreen cfg.tileSize img)).changed =
      ((partitionScreen cfg.tileSize img).filter
        (fingerprintDiffers hashFn st.prevTileHashes)).map
        (fun t => (t.1, t.2.1, t.2.2, compressFn t.2.2)) := by
    unfold scanTiles
    rw [scanFold_changed, hpred]
    simp
  have hnum : (scanTiles hashFn compressFn first st.prevTileHashes
      (partitionScreen cfg.tileSize img)).numChanged =
      changedCount hashFn st.prevTileHashes (partitionScreen cfg.tileSize img) := by
    unfold scanTiles
    rw [scanFold_numChanged, hpred]
    simp [changedCount]
  have hQpos : (0 : ℚ) < ((partitionScreen cfg.tileSize img).length : ℚ) := by
    exact_mod_cast hN
  have hdiv : ((changedCount hashFn st.prevTileHashes (partitionScreen cfg.tileSize img) : ℚ) /
      ((partitionScreen cfg.tileSize img).length : ℚ) > cfg.fallbackThreshold) ↔
      ((changedCount hashFn st.prevTileHashes (partitionScreen cfg.tileSize img) : ℚ) >
        cfg.fallbackThreshold * ((partitionScreen cfg.tileSize img).length : ℚ)) := by
    rw [gt_iff_lt, gt_iff_lt, lt_div_iff₀ hQpos]
  have hfid : nextFrameId st.frameId < 4294967296 := by
    have hlt : (st.frameId + 1) % 0xFFFFFFFF < 0xFFFFFFFF := Nat.mod_lt _ (by norm_num)
    unfold nextFrameId
    omega
  have h0 : (captureIteration hashFn compressFn jpegFn cfg st first img).2.2 =
      if ((scanTiles hashFn compressFn first st.prevTileHashes
            (partitionScreen cfg.tileSize img)).numChanged : ℚ) >
          cfg.fallbackThreshold * ((partitionScreen cfg.tileSize img).length : ℚ) then
        packDeltaPayload (nextFrameId st.frameId) [] (some (jpegFn img))
      else
        packDeltaPayload (nextFrameId st.frameId)
          (scanTiles hashFn compressFn first st.prevTileHashes
            (partitionScreen cfg.tileSize img)).changed none := rfl
  rw [hnum, hchanged] at h0
  by_cases hcond : (changedCount hashFn st.prevTileHashes
      (partitionScreen cfg.tileSize img) : ℚ) >
      cfg.fallbackThreshold * ((partitionScreen cfg.tileSize img).length : ℚ)
  · rw [if_pos hcond] at h0
    refine ⟨1 :: (u32be (nextFrameId st.frameId) ++ jpegFn img), ?_, ?_, ?_⟩
    · rw [h0]
      exact packDeltaPayload_keyframe _ _ _ hfid hjpeg
    · simp only [List.head?_cons, Option.some.injEq]
      constructor
      · intro _
        exact hdiv.mpr hcond
      · intro _
        trivial
    · intro hno
      exact absurd (hdiv.mpr hcond) hno
  · rw [if_neg hcond] at h0
    have hfits' : ∀ u ∈ ((partitionScreen cfg.tileSize img).filter
        (fingerprintDiffers hashFn st.prevTileHashes)).map
        (fun t => (t.1, t.2.1, t.2.2, compressFn t.2.2)), tileFits u := by
      intro u hu
      obtain ⟨t, ht, rfl⟩ := List.mem_map.mp hu
      have htm : t ∈ partitionScreen cfg.tileSize img := List.mem_of_mem_filter ht
      obtain ⟨f1, f2, f3, f4, f5⟩ := hfits t htm
      exact ⟨f1, f2, f3, f4, f5⟩
    have hlen : (((partitionScreen cfg.tileSize img).filter
        (fingerprintDiffers hashFn st.prevTileHashes)).map
        (fun t => (t.1, t.2.1, t.2.2, compressFn t.2.2))).length < 65536 := by
      have h1 := List.length_filter_le (fingerprintDiffers hashFn st.prevTileHashes)
        (partitionScreen cfg.tileSize img)
      simp only [List.length_map]
      omega
    refine ⟨_, by rw [h0]; exact packDeltaPayload_delta _ _ hfid hlen hfits', ?_, ?_⟩
    · simp only [List.head?_cons, Option.some.injEq]
      constructor
      · intro h01
        exact absurd h01.symm one_ne_zero
      · intro hc
        exact absurd (hdiv.mp hc) hcond
    · intro _
      constructor
      · have hun := unpack_delta_bytes (nextFrameId st.frameId)
          (((partitionScreen cfg.tileSize img).filter
            (fingerprintDiffers hashFn st.prevTileHashes)).map
            (fun t => (t.1, t.2.1, t.2.2, compressFn t.2.2))) hfid hlen hfits'
        rw [hun, List.map_map]
        rfl
      · simp [changedCount]

/-- Witness for C1 on a 2 by 1 image with tile size 1, an empty previous
map (first frame) and threshold 7/10: both tiles changed, so C / N = 1
exceeds the threshold and a keyframe is emitted. -/
theorem capture_emit_decision_witness :
    ∃ p, (captureIteration (fun bs => bs) (fun _ => [3]) (fun _ => [1, 2]) ⟨1, 7/10⟩
        ⟨0, fun _ => none⟩ true ⟨2, 1, fun i j => (i, j, 0)⟩).2.2 = .ok p ∧
      (p.head? = some 1 ↔
        (changedCount (fun bs => bs) (fun _ => none)
            (partitionScreen 1 ⟨2, 1, fun i j => (i, j, 0)⟩) : ℚ) /
          ((partitionScreen 1 ⟨2, 1, fun i j => (i, j, 0)⟩).length : ℚ) > (7 / 10 : ℚ)) ∧
      (¬ ((changedCount (fun bs => bs) (fun _ => none)
            (partitionScreen 1 ⟨2, 1, fun i j => (i, j, 0)⟩) : ℚ) /
          ((partitionScreen 1 ⟨2, 1, fun i j => (i, j, 0)⟩).length : ℚ) > (7 / 10 : ℚ)) →
        unpackDeltaPayload p = .ok (nextFrameId 0,
          ((partitionScreen 1 ⟨2, 1, fun i j => (i, j, 0)⟩).filter
            (fingerprintDiffers (fun bs => bs) (fun _ => none))).map
            (fun t => (t.1, t.2.1, t.2.2.width, t.2.2.height, [3])),
          none) ∧
        (((partitionScreen 1 ⟨2, 1, fun i j => (i, j, 0)⟩).filter
            (fingerprintDiffers (fun bs => bs) (fun _ => none))).map
            (fun t => (t.1, t.2.1, t.2.2.width, t.2.2.height, [3]))).length =
          changedCount (fun bs => bs) (fun _ => none)
            (partitionScreen 1 ⟨2, 1, fun i j => (i, j, 0)⟩)) :=
  capture_emit_decision (fun bs => bs) (fun _ => [3]) (fun _ => [1, 2]) ⟨1, 7/10⟩
    ⟨0, fun _ => none⟩ true ⟨2, 1, fun i j => (i, j, 0)⟩ (by decide) (by decide)
    (Or.inr rfl) (by decide) (by decide)

end PixelMirror
